import Mathlib

/-
  Shallow embedding of the chess piece hierarchy in src/a.h (namespace Chess).
  The C++ classes are modelled as Lean structures; the process-wide static
  counters (ChessPiece::whiteCount / blackCount) are passed explicitly as a
  Counters record; C++ exceptions become explicit error values returned next
  to the (unchanged) state.
-/

namespace Chess

/-- Color enum from src/a.h lines 22-25. -/
inductive Color
  | WHITE
  | BLACK
deriving DecidableEq, Repr

/-- The static per-color live-instance counters ChessPiece::whiteCount and
ChessPiece::blackCount (src/a.h lines 41-42, 226-227), passed explicitly. -/
structure Counters where
  whiteCount : Int
  blackCount : Int
deriving DecidableEq, Repr

/-- The data members of ChessPiece (src/a.h lines 36-39): color, position
(x, y) and the hasMoved flag. -/
structure PieceState where
  color : Color
  x : Int
  y : Int
  hasMoved : Bool
deriving DecidableEq, Repr

/-- Error raised by the ChessPiece constructor (std::invalid_argument at
src/a.h line 55; the spec calls it InvalidCoordinates). -/
inductive ConstructError
  | InvalidCoordinates
deriving DecidableEq, Repr

/-- Errors raised by ChessPiece::moveTo (the two InvalidMoveException throw
sites at src/a.h lines 153 and 157, distinguished by their messages; the spec
calls them OutOfBounds and IllegalMove). -/
inductive MoveError
  | OutOfBounds
  | IllegalMove
deriving DecidableEq, Repr

/-- Increment of the counter matching a color, as done in the ChessPiece
constructor body (src/a.h lines 58-62). -/
def incrCounter (col : Color) (c : Counters) : Counters :=
  match col with
  | Color.WHITE => { c with whiteCount := c.whiteCount + 1 }
  | Color.BLACK => { c with blackCount := c.blackCount + 1 }

/-- Decrement of the counter matching a color, as done in ~ChessPiece
(src/a.h lines 116-123). -/
def decrCounter (col : Color) (c : Counters) : Counters :=
  match col with
  | Color.WHITE => { c with whiteCount := c.whiteCount - 1 }
  | Color.BLACK => { c with blackCount := c.blackCount - 1 }

/-- ChessPiece::ChessPiece(Color, int, int) (src/a.h lines 51-63): rejects
out-of-range coordinates before the counters are touched; on success the
piece starts unmoved and the counter of its color is incremented. -/
def mkChessPiece (col : Color) (posX posY : Int) (c : Counters) :
    Except ConstructError PieceState × Counters :=
  if posX < 0 ∨ posX > 7 ∨ posY < 0 ∨ posY > 7 then
    (Except.error ConstructError.InvalidCoordinates, c)
  else
    (Except.ok { color := col, x := posX, y := posY, hasMoved := false },
     incrCounter col c)

/-- ChessPiece::ChessPiece(const ChessPiece&) (src/a.h lines 71-78): copies
all four members and increments the counter of the copied color. -/
def copyChessPiece (other : PieceState) (c : Counters) :
    PieceState × Counters :=
  ({ color := other.color, x := other.x, y := other.y,
     hasMoved := other.hasMoved },
   incrCounter other.color c)

/-- ChessPiece::~ChessPiece (src/a.h lines 116-123): decrements the counter
of the destroyed piece's color. -/
def destroyChessPiece (p : PieceState) (c : Counters) : Counters :=
  decrCounter p.color c

/-- ChessPiece::validateBoardState (src/a.h lines 198-200). -/
def validateBoardState (c : Counters) : Bool :=
  c.whiteCount ≤ 16 && c.blackCount ≤ 16

/-- The three capability booleans of SlidingPiece (src/a.h lines 239-241). -/
structure SlidingCaps where
  canMoveHorizontally : Bool
  canMoveVertically : Bool
  canMoveDiagonally : Bool
deriving DecidableEq, Repr

/-- SlidingPiece::canMoveTo (src/a.h lines 269-301): refuses the current
square and out-of-board targets, then tests horizontal, vertical and
diagonal movement in turn against the capability flags. -/
def SlidingPiece.canMoveTo (caps : SlidingCaps) (p : PieceState)
    (newX newY : Int) : Bool :=
  if newX = p.x ∧ newY = p.y then
    false
  else if newX < 0 ∨ newX > 7 ∨ newY < 0 ∨ newY > 7 then
    false
  else if newY = p.y ∧ caps.canMoveHorizontally then
    true
  else if newX = p.x ∧ caps.canMoveVertically then
    true
  else if (newX - p.x).natAbs = (newY - p.y).natAbs ∧ caps.canMoveDiagonally then
    true
  else
    false

/-- A jump offset, JumpingPiece::MovePattern (src/a.h lines 356-359). -/
structure MovePattern where
  deltaX : Int
  deltaY : Int
deriving DecidableEq, Repr

/-- JumpingPiece::movePatterns (src/a.h lines 361-364): the eight knight
offsets; patternCount = 8 (src/a.h line 451) is the list length. -/
def movePatterns : List MovePattern :=
  [⟨2, 1⟩, ⟨2, -1⟩, ⟨-2, 1⟩, ⟨-2, -1⟩, ⟨1, 2⟩, ⟨1, -2⟩, ⟨-1, 2⟩, ⟨-1, -2⟩]

/-- JumpingPiece::canMoveTo (src/a.h lines 386-411): refuses the current
square and out-of-board targets, then scans the movePatterns table for an
offset landing exactly on the target. -/
def JumpingPiece.canMoveTo (p : PieceState) (newX newY : Int) : Bool :=
  if newX = p.x ∧ newY = p.y then
    false
  else if newX < 0 ∨ newX > 7 ∨ newY < 0 ∨ newY > 7 then
    false
  else
    movePatterns.any (fun m => p.x + m.deltaX == newX && p.y + m.deltaY == newY)

/-- The concrete piece kinds the claims mention (Knight from src/a.h lines
460-482, Rook 491-514, Bishop 523-554, Queen 590-623). -/
inductive PieceKind
  | Rook
  | Bishop
  | Knight
  | Queen
deriving DecidableEq, Repr

/-- The capability profile each sliding kind passes to the SlidingPiece
constructor: Rook (true, true, false) at src/a.h line 500, Bishop
(false, false, true) at line 532, Queen (true, true, true) at line 599.
Knight is not a sliding piece; it gets the all-false profile. -/
def slidingCapsOf : PieceKind → SlidingCaps
  | PieceKind.Rook => ⟨true, true, false⟩
  | PieceKind.Bishop => ⟨false, false, true⟩
  | PieceKind.Queen => ⟨true, true, true⟩
  | PieceKind.Knight => ⟨false, false, false⟩

/-- Virtual dispatch of canMoveTo: Rook, Bishop and Queen inherit
SlidingPiece::canMoveTo with their capability profiles; Knight inherits
JumpingPiece::canMoveTo. -/
def canMoveTo (k : PieceKind) (p : PieceState) (newX newY : Int) : Bool :=
  match k with
  | PieceKind.Rook => SlidingPiece.canMoveTo (slidingCapsOf PieceKind.Rook) p newX newY
  | PieceKind.Bishop => SlidingPiece.canMoveTo (slidingCapsOf PieceKind.Bishop) p newX newY
  | PieceKind.Queen => SlidingPiece.canMoveTo (slidingCapsOf PieceKind.Queen) p newX newY
  | PieceKind.Knight => JumpingPiece.canMoveTo p newX newY

/-- Queen::hasSpecialAbility (src/a.h line 607) overriding the
CombinedPiece default (line 579). -/
def Queen.hasSpecialAbility : Bool := true

/-- ChessPiece::moveTo (src/a.h lines 151-163): throws on an out-of-board
target, then on a target canMoveTo rejects; only then mutates x, y and
hasMoved. A throw leaves the piece unchanged, so on failure the original
state is returned next to the error. -/
def ChessPiece.moveTo (k : PieceKind) (p : PieceState) (newX newY : Int) :
    PieceState × Option MoveError :=
  if newX < 0 ∨ newX > 7 ∨ newY < 0 ∨ newY > 7 then
    (p, some MoveError.OutOfBounds)
  else if ¬ canMoveTo k p newX newY then
    (p, some MoveError.IllegalMove)
  else
    ({ p with x := newX, y := newY, hasMoved := true }, none)

/-- Runs a sequence of moveTo calls on a piece, keeping the state the C++
object holds after each call (unchanged when the call threw). -/
def runMoves (k : PieceKind) : List (Int × Int) → PieceState → PieceState
  | [], p => p
  | (nx, ny) :: ms, p => runMoves k ms (ChessPiece.moveTo k p nx ny).1

/-- Constructs a list of pieces in order, threading the counters; failed
constructions (as in the source) create no piece and leave the counters
untouched. -/
def constructAll : List (Color × Int × Int) → Counters →
    List PieceState × Counters
  | [], c => ([], c)
  | s :: rest, c =>
    match mkChessPiece s.1 s.2.1 s.2.2 c with
    | (Except.ok p, c1) =>
      let r := constructAll rest c1
      (p :: r.1, r.2)
    | (Except.error _, c1) => constructAll rest c1

/-- Destroys a list of pieces in order, threading the counters. -/
def destroyAll : List PieceState → Counters → Counters
  | [], c => c
  | p :: ps, c => destroyAll ps (destroyChessPiece p c)

/-- Number of pieces of a given color in a list, as an Int so it can be
compared with the counters. -/
def countColor (col : Color) : List PieceState → Int
  | [] => 0
  | p :: ps => (if p.color = col then 1 else 0) + countColor col ps

/-- Helper: characterization of SlidingPiece::canMoveTo for an in-bounds
target distinct from the current square. -/
theorem sliding_canMoveTo_iff (caps : SlidingCaps) (p : PieceState)
    (newX newY : Int)
    (hnx : 0 ≤ newX) (hnx7 : newX ≤ 7) (hny : 0 ≤ newY) (hny7 : newY ≤ 7)
    (hne : ¬(newX = p.x ∧ newY = p.y)) :
    SlidingPiece.canMoveTo caps p newX newY = true ↔
      ((newY = p.y ∧ caps.canMoveHorizontally = true) ∨
       (newX = p.x ∧ caps.canMoveVertically = true) ∨
       ((newX - p.x).natAbs = (newY - p.y).natAbs ∧
          caps.canMoveDiagonally = true)) := by
  have hb : ¬(newX < 0 ∨ newX > 7 ∨ newY < 0 ∨ newY > 7) := by omega
  unfold SlidingPiece.canMoveTo
  rw [if_neg hne, if_neg hb]
  split_ifs with h3 h4 h5
  · simp only [true_iff]
    exact Or.inl h3
  · simp only [true_iff]
    exact Or.inr (Or.inl h4)
  · simp only [true_iff]
    exact Or.inr (Or.inr h5)
  · simp only [false_iff]
    push_neg at h3 h4 h5
    rintro (⟨hy, hcap⟩ | ⟨hx, hcap⟩ | ⟨hd, hcap⟩)
    · exact absurd hcap (h3 hy)
    · exact absurd hcap (h4 hx)
    · exact absurd hcap (h5 hd)

/-- C1: For every sliding piece (Rook, Bishop, Queen) at an in-bounds
position and every in-bounds target distinct from the current square,
canMoveTo holds exactly when (same row and horizontal capability) or
(same column and vertical capability) or (equal absolute deltas and
diagonal capability), with Rook = (horizontal, vertical, no diagonal),
Bishop = (diagonal only), Queen = all three. -/
theorem sliding_kinds_canMoveTo_characterization (k : PieceKind)
    (hk : k = PieceKind.Rook ∨ k = PieceKind.Bishop ∨ k = PieceKind.Queen)
    (p : PieceState) (newX newY : Int)
    (hpx : 0 ≤ p.x) (hpx7 : p.x ≤ 7) (hpy : 0 ≤ p.y) (hpy7 : p.y ≤ 7)
    (hnx : 0 ≤ newX) (hnx7 : newX ≤ 7) (hny : 0 ≤ newY) (hny7 : newY ≤ 7)
    (hne : ¬(newX = p.x ∧ newY = p.y)) :
    (canMoveTo k p newX newY = true ↔
      ((newY = p.y ∧ (slidingCapsOf k).canMoveHorizontally = true) ∨
       (newX = p.x ∧ (slidingCapsOf k).canMoveVertically = true) ∨
       ((newX - p.x).natAbs = (newY - p.y).natAbs ∧
          (slidingCapsOf k).canMoveDiagonally = true))) ∧
    slidingCapsOf PieceKind.Rook = ⟨true, true, false⟩ ∧
    slidingCapsOf PieceKind.Bishop = ⟨false, false, true⟩ ∧
    slidingCapsOf PieceKind.Queen = ⟨true, true, true⟩ := by
  refine ⟨?_, rfl, rfl, rfl⟩
  rcases hk with rfl | rfl | rfl <;>
    exact sliding_canMoveTo_iff _ p newX newY hnx hnx7 hny hny7 hne

/-- C1 witness: a Rook at (0,0) can move to (0,4), matching the
characterization at that input. -/
theorem sliding_kinds_canMoveTo_characterization_witness :
    (canMoveTo PieceKind.Rook ⟨Color.WHITE, 0, 0, false⟩ 0 4 = true ↔
      ((4 = (0 : Int) ∧ (slidingCapsOf PieceKind.Rook).canMoveHorizontally = true) ∨
       ((0 : Int) = 0 ∧ (slidingCapsOf PieceKind.Rook).canMoveVertically = true) ∨
       (((0 : Int) - 0).natAbs = ((4 : Int) - 0).natAbs ∧
          (slidingCapsOf PieceKind.Rook).canMoveDiagonally = true))) ∧
    slidingCapsOf PieceKind.Rook = ⟨true, true, false⟩ ∧
    slidingCapsOf PieceKind.Bishop = ⟨false, false, true⟩ ∧
    slidingCapsOf PieceKind.Queen = ⟨true, true, true⟩ :=
  sliding_kinds_canMoveTo_characterization PieceKind.Rook (Or.inl rfl)
    ⟨Color.WHITE, 0, 0, false⟩ 0 4
    (by decide) (by decide) (by decide) (by decide)
    (by decide) (by decide) (by decide) (by decide) (by decide)

set_option maxHeartbeats 1000000 in
/-- C2: a Knight at an in-bounds position can move to an in-bounds target
exactly when the displacement is one of the eight offsets
(±1, ±2), (±2, ±1). -/
theorem knight_canMoveTo_iff (p : PieceState) (newX newY : Int)
    (hpx : 0 ≤ p.x) (hpx7 : p.x ≤ 7) (hpy : 0 ≤ p.y) (hpy7 : p.y ≤ 7)
    (hnx : 0 ≤ newX) (hnx7 : newX ≤ 7) (hny : 0 ≤ newY) (hny7 : newY ≤ 7) :
    canMoveTo PieceKind.Knight p newX newY = true ↔
      ((newX - p.x = 1 ∧ newY - p.y = 2) ∨ (newX - p.x = 1 ∧ newY - p.y = -2) ∨
       (newX - p.x = -1 ∧ newY - p.y = 2) ∨ (newX - p.x = -1 ∧ newY - p.y = -2) ∨
       (newX - p.x = 2 ∧ newY - p.y = 1) ∨ (newX - p.x = 2 ∧ newY - p.y = -1) ∨
       (newX - p.x = -2 ∧ newY - p.y = 1) ∨ (newX - p.x = -2 ∧ newY - p.y = -1)) := by
  have hb : ¬(newX < 0 ∨ newX > 7 ∨ newY < 0 ∨ newY > 7) := by omega
  show JumpingPiece.canMoveTo p newX newY = true ↔ _
  unfold JumpingPiece.canMoveTo
  rw [if_neg hb]
  split_ifs with h1
  · simp only [false_iff]
    omega
  · simp only [movePatterns, List.any_cons, List.any_nil, Bool.or_eq_true,
      Bool.and_eq_true, beq_iff_eq, Bool.or_false]
    omega

/-- C2 witness: a Knight at (4,4) reaching (6,5), displacement (2,1). -/
theorem knight_canMoveTo_iff_witness :
    canMoveTo PieceKind.Knight ⟨Color.WHITE, 4, 4, false⟩ 6 5 = true ↔
      (((6 : Int) - 4 = 1 ∧ (5 : Int) - 4 = 2) ∨ ((6 : Int) - 4 = 1 ∧ (5 : Int) - 4 = -2) ∨
       ((6 : Int) - 4 = -1 ∧ (5 : Int) - 4 = 2) ∨ ((6 : Int) - 4 = -1 ∧ (5 : Int) - 4 = -2) ∨
       ((6 : Int) - 4 = 2 ∧ (5 : Int) - 4 = 1) ∨ ((6 : Int) - 4 = 2 ∧ (5 : Int) - 4 = -1) ∨
       ((6 : Int) - 4 = -2 ∧ (5 : Int) - 4 = 1) ∨ ((6 : Int) - 4 = -2 ∧ (5 : Int) - 4 = -1)) :=
  knight_canMoveTo_iff ⟨Color.WHITE, 4, 4, false⟩ 6 5
    (by decide) (by decide) (by decide) (by decide)
    (by decide) (by decide) (by decide) (by decide)

/-- Helper: every kind's canMoveTo rejects out-of-board targets. -/
theorem canMoveTo_oob_false (k : PieceKind) (p : PieceState) (newX newY : Int)
    (h : newX < 0 ∨ newX > 7 ∨ newY < 0 ∨ newY > 7) :
    canMoveTo k p newX newY = false := by
  cases k <;>
    simp only [canMoveTo, SlidingPiece.canMoveTo, JumpingPiece.canMoveTo] <;>
    split_ifs <;> first | rfl | (exfalso; omega)

/-- Helper: canMoveTo accepts only in-board targets. -/
theorem inBounds_of_canMoveTo (k : PieceKind) (p : PieceState) (newX newY : Int)
    (h : canMoveTo k p newX newY = true) :
    ¬(newX < 0 ∨ newX > 7 ∨ newY < 0 ∨ newY > 7) := by
  intro hob
  rw [canMoveTo_oob_false k p newX newY hob] at h
  exact Bool.false_ne_true h

/-- Helper: moveTo on an out-of-board target throws OutOfBounds and leaves
the piece unchanged. -/
theorem moveTo_oob_eq (k : PieceKind) (p : PieceState) (newX newY : Int)
    (h : newX < 0 ∨ newX > 7 ∨ newY < 0 ∨ newY > 7) :
    ChessPiece.moveTo k p newX newY = (p, some MoveError.OutOfBounds) := by
  unfold ChessPiece.moveTo
  rw [if_pos h]

/-- Helper: moveTo on an in-board target refused by canMoveTo throws
IllegalMove and leaves the piece unchanged. -/
theorem moveTo_illegal_eq (k : PieceKind) (p : PieceState) (newX newY : Int)
    (hb : ¬(newX < 0 ∨ newX > 7 ∨ newY < 0 ∨ newY > 7))
    (h : canMoveTo k p newX newY = false) :
    ChessPiece.moveTo k p newX newY = (p, some MoveError.IllegalMove) := by
  unfold ChessPiece.moveTo
  rw [if_neg hb, if_pos]
  simp [h]

/-- Helper: moveTo on a target accepted by canMoveTo updates the position,
sets hasMoved, keeps the color, and throws nothing. -/
theorem moveTo_ok_eq (k : PieceKind) (p : PieceState) (newX newY : Int)
    (h : canMoveTo k p newX newY = true) :
    ChessPiece.moveTo k p newX newY =
      ({ color := p.color, x := newX, y := newY, hasMoved := true }, none) := by
  unfold ChessPiece.moveTo
  rw [if_neg (inBounds_of_canMoveTo k p newX newY h), if_neg]
  simp [h]

/-- Helper: moveTo never moves a piece off the board. -/
theorem moveTo_bounds_preserved (k : PieceKind) (p : PieceState)
    (newX newY : Int)
    (hp : 0 ≤ p.x ∧ p.x ≤ 7 ∧ 0 ≤ p.y ∧ p.y ≤ 7) :
    0 ≤ (ChessPiece.moveTo k p newX newY).1.x ∧
    (ChessPiece.moveTo k p newX newY).1.x ≤ 7 ∧
    0 ≤ (ChessPiece.moveTo k p newX newY).1.y ∧
    (ChessPiece.moveTo k p newX newY).1.y ≤ 7 := by
  unfold ChessPiece.moveTo
  split_ifs with h1 h2
  · exact hp
  · show 0 ≤ newX ∧ newX ≤ 7 ∧ 0 ≤ newY ∧ newY ≤ 7
    omega
  · exact hp

/-- Helper: a whole sequence of moveTo calls never moves a piece off the
board. -/
theorem runMoves_bounds (k : PieceKind) (moves : List (Int × Int))
    (p : PieceState)
    (hp : 0 ≤ p.x ∧ p.x ≤ 7 ∧ 0 ≤ p.y ∧ p.y ≤ 7) :
    0 ≤ (runMoves k moves p).x ∧ (runMoves k moves p).x ≤ 7 ∧
    0 ≤ (runMoves k moves p).y ∧ (runMoves k moves p).y ≤ 7 := by
  induction moves generalizing p with
  | nil => exact hp
  | cons m ms ih =>
    exact ih (ChessPiece.moveTo k p m.1 m.2).1
      (moveTo_bounds_preserved k p m.1 m.2 hp)

/-- Helper: moveTo never clears the hasMoved flag. -/
theorem moveTo_hasMoved_mono (k : PieceKind) (p : PieceState)
    (newX newY : Int) (h : p.hasMoved = true) :
    (ChessPiece.moveTo k p newX newY).1.hasMoved = true := by
  unfold ChessPiece.moveTo
  split_ifs <;> simpa using h

/-- Helper: a whole sequence of moveTo calls never clears hasMoved. -/
theorem runMoves_hasMoved_mono (k : PieceKind) (moves : List (Int × Int))
    (p : PieceState) (h : p.hasMoved = true) :
    (runMoves k moves p).hasMoved = true := by
  induction moves generalizing p with
  | nil => exact h
  | cons m ms ih =>
    exact ih (ChessPiece.moveTo k p m.1 m.2).1
      (moveTo_hasMoved_mono k p m.1 m.2 h)

/-- Helper: unfolding lemma for constructAll on a nonempty list. -/
theorem constructAll_cons (s : Color × Int × Int)
    (rest : List (Color × Int × Int)) (c : Counters) :
    constructAll (s :: rest) c =
      if s.2.1 < 0 ∨ s.2.1 > 7 ∨ s.2.2 < 0 ∨ s.2.2 > 7 then
        constructAll rest c
      else
        ((⟨s.1, s.2.1, s.2.2, false⟩ : PieceState) ::
            (constructAll rest (incrCounter s.1 c)).1,
         (constructAll rest (incrCounter s.1 c)).2) := by
  rw [constructAll, mkChessPiece]
  split_ifs <;> rfl

/-- Helper: destroyAll subtracts, per color, the number of destroyed pieces
of that color. -/
theorem destroyAll_counts (ps : List PieceState) (c : Counters) :
    destroyAll ps c =
      ⟨c.whiteCount - countColor Color.WHITE ps,
       c.blackCount - countColor Color.BLACK ps⟩ := by
  induction ps generalizing c with
  | nil => simp [destroyAll, countColor]
  | cons p ps ih =>
    rw [destroyAll, ih, destroyChessPiece]
    cases hp : p.color <;>
      simp [decrCounter, countColor, hp, Counters.mk.injEq] <;>
      omega

/-- Helper: the counters after constructAll exceed the initial ones by, per
color, the number of pieces of that color actually created. -/
theorem constructAll_counts (specs : List (Color × Int × Int)) (c : Counters) :
    (constructAll specs c).2 =
      ⟨c.whiteCount + countColor Color.WHITE (constructAll specs c).1,
       c.blackCount + countColor Color.BLACK (constructAll specs c).1⟩ := by
  induction specs generalizing c with
  | nil => simp [constructAll, countColor]
  | cons s rest ih =>
    rw [constructAll_cons]
    split_ifs with hs
    · exact ih c
    · rw [ih (incrCounter s.1 c)]
      cases hcol : s.1 <;>
        simp [incrCounter, countColor, hcol, Counters.mk.injEq] <;>
        omega

/-- C3: moveTo fails with OutOfBounds on an off-board target and with
IllegalMove on an in-board target that canMoveTo rejects, leaving the piece
(position, hasMoved and color) unchanged in both cases; on success it sets
the position to the target, sets hasMoved, and changes nothing else. -/
theorem moveTo_failure_success_spec (k : PieceKind) (p : PieceState)
    (newX newY : Int) :
    ((newX < 0 ∨ newX > 7 ∨ newY < 0 ∨ newY > 7) →
       ChessPiece.moveTo k p newX newY = (p, some MoveError.OutOfBounds)) ∧
    ((0 ≤ newX ∧ newX ≤ 7 ∧ 0 ≤ newY ∧ newY ≤ 7) →
       canMoveTo k p newX newY = false →
       ChessPiece.moveTo k p newX newY = (p, some MoveError.IllegalMove)) ∧
    (canMoveTo k p newX newY = true →
       ChessPiece.moveTo k p newX newY =
         ({ color := p.color, x := newX, y := newY, hasMoved := true },
          none)) := by
  refine ⟨fun h => moveTo_oob_eq k p newX newY h,
          fun hb h => moveTo_illegal_eq k p newX newY (by omega) h,
          fun h => moveTo_ok_eq k p newX newY h⟩

/-- C3 witness: a white Rook at (0,0): moveTo (8,0) fails with OutOfBounds,
moveTo (4,4) fails with IllegalMove, moveTo (0,4) succeeds and only updates
position and hasMoved. -/
theorem moveTo_failure_success_spec_witness :
    ChessPiece.moveTo PieceKind.Rook ⟨Color.WHITE, 0, 0, false⟩ 8 0 =
      (⟨Color.WHITE, 0, 0, false⟩, some MoveError.OutOfBounds) ∧
    ChessPiece.moveTo PieceKind.Rook ⟨Color.WHITE, 0, 0, false⟩ 4 4 =
      (⟨Color.WHITE, 0, 0, false⟩, some MoveError.IllegalMove) ∧
    ChessPiece.moveTo PieceKind.Rook ⟨Color.WHITE, 0, 0, false⟩ 0 4 =
      (⟨Color.WHITE, 0, 4, true⟩, none) :=
  ⟨(moveTo_failure_success_spec PieceKind.Rook ⟨Color.WHITE, 0, 0, false⟩ 8 0).1
      (by decide),
   (moveTo_failure_success_spec PieceKind.Rook ⟨Color.WHITE, 0, 0, false⟩ 4 4).2.1
      (by decide) (by decide),
   (moveTo_failure_success_spec PieceKind.Rook ⟨Color.WHITE, 0, 0, false⟩ 0 4).2.2
      (by decide)⟩

/-- C4: a copy taken before a successful moveTo on the original keeps the
pre-move position and unmoved status while the original has moved, and
taking the copy increments the counter of the copy's color. -/
theorem copy_unaffected_by_move (k : PieceKind) (p : PieceState)
    (c : Counters) (newX newY : Int)
    (hunmoved : p.hasMoved = false)
    (hmove : canMoveTo k p newX newY = true) :
    (copyChessPiece p c).1.x = p.x ∧ (copyChessPiece p c).1.y = p.y ∧
    (copyChessPiece p c).1.hasMoved = false ∧
    (copyChessPiece p c).1.color = p.color ∧
    (ChessPiece.moveTo k p newX newY).1.x = newX ∧
    (ChessPiece.moveTo k p newX newY).1.y = newY ∧
    (ChessPiece.moveTo k p newX newY).1.hasMoved = true ∧
    (ChessPiece.moveTo k p newX newY).2 = none ∧
    (p.color = Color.WHITE →
       (copyChessPiece p c).2 = ⟨c.whiteCount + 1, c.blackCount⟩) ∧
    (p.color = Color.BLACK →
       (copyChessPiece p c).2 = ⟨c.whiteCount, c.blackCount + 1⟩) := by
  rw [moveTo_ok_eq k p newX newY hmove]
  refine ⟨rfl, rfl, hunmoved, rfl, rfl, rfl, rfl, rfl, fun hc => ?_, fun hc => ?_⟩ <;>
    simp [copyChessPiece, incrCounter, hc]

/-- C4 witness: copying a white Rook at (0,0) before moving it to (0,4). -/
theorem copy_unaffected_by_move_witness :
    (copyChessPiece ⟨Color.WHITE, 0, 0, false⟩ ⟨0, 0⟩).1.x = 0 ∧
    (copyChessPiece ⟨Color.WHITE, 0, 0, false⟩ ⟨0, 0⟩).1.y = 0 ∧
    (copyChessPiece ⟨Color.WHITE, 0, 0, false⟩ ⟨0, 0⟩).1.hasMoved = false ∧
    (copyChessPiece ⟨Color.WHITE, 0, 0, false⟩ ⟨0, 0⟩).1.color =
      (⟨Color.WHITE, 0, 0, false⟩ : PieceState).color ∧
    (ChessPiece.moveTo PieceKind.Rook ⟨Color.WHITE, 0, 0, false⟩ 0 4).1.x = 0 ∧
    (ChessPiece.moveTo PieceKind.Rook ⟨Color.WHITE, 0, 0, false⟩ 0 4).1.y = 4 ∧
    (ChessPiece.moveTo PieceKind.Rook ⟨Color.WHITE, 0, 0, false⟩ 0 4).1.hasMoved = true ∧
    (ChessPiece.moveTo PieceKind.Rook ⟨Color.WHITE, 0, 0, false⟩ 0 4).2 = none ∧
    ((⟨Color.WHITE, 0, 0, false⟩ : PieceState).color = Color.WHITE →
       (copyChessPiece ⟨Color.WHITE, 0, 0, false⟩ ⟨0, 0⟩).2 = ⟨0 + 1, 0⟩) ∧
    ((⟨Color.WHITE, 0, 0, false⟩ : PieceState).color = Color.BLACK →
       (copyChessPiece ⟨Color.WHITE, 0, 0, false⟩ ⟨0, 0⟩).2 = ⟨0, 0 + 1⟩) :=
  copy_unaffected_by_move PieceKind.Rook ⟨Color.WHITE, 0, 0, false⟩ ⟨0, 0⟩ 0 4
    rfl (by decide)

/-- C5: constructing a piece at in-range coordinates succeeds with an
unmoved piece at that position and increments exactly the counter of its
color; out-of-range coordinates fail with InvalidCoordinates, create no
piece, and leave both counters untouched. -/
theorem construct_validates_coordinates (col : Color) (posX posY : Int)
    (c : Counters) :
    ((0 ≤ posX ∧ posX ≤ 7 ∧ 0 ≤ posY ∧ posY ≤ 7) →
       mkChessPiece col posX posY c =
         (Except.ok ⟨col, posX, posY, false⟩,
          if col = Color.WHITE then ⟨c.whiteCount + 1, c.blackCount⟩
          else ⟨c.whiteCount, c.blackCount + 1⟩)) ∧
    ((posX < 0 ∨ posX > 7 ∨ posY < 0 ∨ posY > 7) →
       mkChessPiece col posX posY c =
         (Except.error ConstructError.InvalidCoordinates, c)) := by
  constructor
  · intro h
    have hb : ¬(posX < 0 ∨ posX > 7 ∨ posY < 0 ∨ posY > 7) := by omega
    unfold mkChessPiece
    rw [if_neg hb]
    cases col <;> simp [incrCounter]
  · intro h
    unfold mkChessPiece
    rw [if_pos h]

/-- C5 witness: construction succeeds at (3,3) for black and fails at (8,0)
for white, with the counters updated accordingly. -/
theorem construct_validates_coordinates_witness :
    mkChessPiece Color.BLACK 3 3 ⟨5, 6⟩ =
      (Except.ok ⟨Color.BLACK, 3, 3, false⟩,
       if Color.BLACK = Color.WHITE then ⟨5 + 1, 6⟩ else ⟨5, 6 + 1⟩) ∧
    mkChessPiece Color.WHITE 8 0 ⟨5, 6⟩ =
      (Except.error ConstructError.InvalidCoordinates, ⟨5, 6⟩) :=
  ⟨(construct_validates_coordinates Color.BLACK 3 3 ⟨5, 6⟩).1 (by decide),
   (construct_validates_coordinates Color.WHITE 8 0 ⟨5, 6⟩).2 (by decide)⟩

/-- C6: moveTo succeeds exactly when canMoveTo accepts the target, and the
in-bounds pre-check in moveTo rejects nothing canMoveTo would accept, since
canMoveTo is already false on every off-board target. -/
theorem moveTo_ok_iff_canMoveTo (k : PieceKind) (p : PieceState)
    (newX newY : Int) :
    ((ChessPiece.moveTo k p newX newY).2 = none ↔
       canMoveTo k p newX newY = true) ∧
    ((newX < 0 ∨ newX > 7 ∨ newY < 0 ∨ newY > 7) →
       canMoveTo k p newX newY = false) := by
  refine ⟨⟨fun hnone => ?_, fun hcan => ?_⟩, canMoveTo_oob_false k p newX newY⟩
  · by_contra hcan
    rw [Bool.not_eq_true] at hcan
    by_cases hb : newX < 0 ∨ newX > 7 ∨ newY < 0 ∨ newY > 7
    · rw [moveTo_oob_eq k p newX newY hb] at hnone
      exact Option.noConfusion hnone
    · rw [moveTo_illegal_eq k p newX newY hb hcan] at hnone
      exact Option.noConfusion hnone
  · rw [moveTo_ok_eq k p newX newY hcan]

/-- C6 witness: for a white Rook at (0,0), the equivalence at target (0,4)
and the off-board rejection at target (8,0). -/
theorem moveTo_ok_iff_canMoveTo_witness :
    ((ChessPiece.moveTo PieceKind.Rook ⟨Color.WHITE, 0, 0, false⟩ 0 4).2 = none ↔
       canMoveTo PieceKind.Rook ⟨Color.WHITE, 0, 0, false⟩ 0 4 = true) ∧
    canMoveTo PieceKind.Rook ⟨Color.WHITE, 0, 0, false⟩ 8 0 = false :=
  ⟨(moveTo_ok_iff_canMoveTo PieceKind.Rook ⟨Color.WHITE, 0, 0, false⟩ 0 4).1,
   (moveTo_ok_iff_canMoveTo PieceKind.Rook ⟨Color.WHITE, 0, 0, false⟩ 8 0).2
      (by decide)⟩

/-- C7: constructing any number of pieces (all at in-range coordinates) and
then destroying all of them restores both counters; each construction
increments exactly the counter of its color and each destruction decrements
exactly the counter of the destroyed piece's color. -/
theorem counters_restored_after_destroy (specs : List (Color × Int × Int))
    (c : Counters)
    (h : ∀ s ∈ specs, 0 ≤ s.2.1 ∧ s.2.1 ≤ 7 ∧ 0 ≤ s.2.2 ∧ s.2.2 ≤ 7) :
    destroyAll (constructAll specs c).1 (constructAll specs c).2 = c ∧
    (∀ (col : Color) (posX posY : Int) (d : Counters),
       0 ≤ posX → posX ≤ 7 → 0 ≤ posY → posY ≤ 7 →
       (mkChessPiece col posX posY d).2 =
         (if col = Color.WHITE then ⟨d.whiteCount + 1, d.blackCount⟩
          else ⟨d.whiteCount, d.blackCount + 1⟩)) ∧
    (∀ (p : PieceState) (d : Counters),
       destroyChessPiece p d =
         (if p.color = Color.WHITE then ⟨d.whiteCount - 1, d.blackCount⟩
          else ⟨d.whiteCount, d.blackCount - 1⟩)) := by
  refine ⟨?_, ?_, ?_⟩
  · rw [constructAll_counts, destroyAll_counts]
    cases c
    simp [Counters.mk.injEq]
  · intro col posX posY d h1 h2 h3 h4
    unfold mkChessPiece
    rw [if_neg (by omega)]
    cases col <;> simp [incrCounter]
  · intro p d
    unfold destroyChessPiece
    cases hp : p.color <;> simp [decrCounter, hp]

/-- C7 witness: building a white and a black piece from counters (2,3) and
destroying both restores (2,3); the single-step counter laws at concrete
inputs. -/
theorem counters_restored_after_destroy_witness :
    destroyAll
      (constructAll [(Color.WHITE, 0, 0), (Color.BLACK, 7, 7)] ⟨2, 3⟩).1
      (constructAll [(Color.WHITE, 0, 0), (Color.BLACK, 7, 7)] ⟨2, 3⟩).2 =
      (⟨2, 3⟩ : Counters) ∧
    (mkChessPiece Color.WHITE 0 0 ⟨2, 3⟩).2 =
      (if Color.WHITE = Color.WHITE then (⟨2 + 1, 3⟩ : Counters)
       else ⟨2, 3 + 1⟩) ∧
    destroyChessPiece ⟨Color.BLACK, 7, 7, false⟩ ⟨2, 3⟩ =
      (if (⟨Color.BLACK, 7, 7, false⟩ : PieceState).color = Color.WHITE then
        (⟨2 - 1, 3⟩ : Counters)
       else ⟨2, 3 - 1⟩) := by
  have h := counters_restored_after_destroy
    [(Color.WHITE, 0, 0), (Color.BLACK, 7, 7)] ⟨2, 3⟩ (by decide)
  exact ⟨h.1, h.2.1 Color.WHITE 0 0 ⟨2, 3⟩ (by decide) (by decide) (by decide)
      (by decide),
    h.2.2 ⟨Color.BLACK, 7, 7, false⟩ ⟨2, 3⟩⟩

/-- C8: a successfully constructed piece keeps both coordinates within
[0,7] after any sequence of moveTo calls, successful or failed. -/
theorem position_always_in_bounds (k : PieceKind) (col : Color)
    (posX posY : Int) (c : Counters) (p0 : PieceState)
    (hctor : (mkChessPiece col posX posY c).1 = Except.ok p0)
    (moves : List (Int × Int)) :
    0 ≤ (runMoves k moves p0).x ∧ (runMoves k moves p0).x ≤ 7 ∧
    0 ≤ (runMoves k moves p0).y ∧ (runMoves k moves p0).y ≤ 7 := by
  have h0 : 0 ≤ p0.x ∧ p0.x ≤ 7 ∧ 0 ≤ p0.y ∧ p0.y ≤ 7 := by
    unfold mkChessPiece at hctor
    split_ifs at hctor with hb
    injection hctor with h
    rw [← h]
    show 0 ≤ posX ∧ posX ≤ 7 ∧ 0 ≤ posY ∧ posY ≤ 7
    omega
  exact runMoves_bounds k moves p0 h0

/-- C8 witness: a white Rook constructed at (0,0) stays on the board after
the move sequence (0,4), (9,9), (4,4). -/
theorem position_always_in_bounds_witness :
    0 ≤ (runMoves PieceKind.Rook [(0, 4), (9, 9), (4, 4)]
          ⟨Color.WHITE, 0, 0, false⟩).x ∧
    (runMoves PieceKind.Rook [(0, 4), (9, 9), (4, 4)]
        ⟨Color.WHITE, 0, 0, false⟩).x ≤ 7 ∧
    0 ≤ (runMoves PieceKind.Rook [(0, 4), (9, 9), (4, 4)]
          ⟨Color.WHITE, 0, 0, false⟩).y ∧
    (runMoves PieceKind.Rook [(0, 4), (9, 9), (4, 4)]
        ⟨Color.WHITE, 0, 0, false⟩).y ≤ 7 :=
  position_always_in_bounds PieceKind.Rook Color.WHITE 0 0 ⟨0, 0⟩
    ⟨Color.WHITE, 0, 0, false⟩ rfl [(0, 4), (9, 9), (4, 4)]

/-- C9: hasMoved is false at creation, becomes true on a successful moveTo,
and once true is never reset by any later sequence of moveTo calls. -/
theorem hasMoved_lifecycle (k : PieceKind) :
    (∀ (col : Color) (posX posY : Int) (c : Counters) (p0 : PieceState),
       (mkChessPiece col posX posY c).1 = Except.ok p0 →
       p0.hasMoved = false) ∧
    (∀ (p : PieceState) (newX newY : Int),
       (ChessPiece.moveTo k p newX newY).2 = none →
       (ChessPiece.moveTo k p newX newY).1.hasMoved = true) ∧
    (∀ (p : PieceState) (moves : List (Int × Int)),
       p.hasMoved = true → (runMoves k moves p).hasMoved = true) := by
  refine ⟨?_, ?_, fun p moves h => runMoves_hasMoved_mono k moves p h⟩
  · intro col posX posY c p0 hctor
    unfold mkChessPiece at hctor
    split_ifs at hctor with hb
    injection hctor with h
    rw [← h]
  · intro p newX newY hnone
    unfold ChessPiece.moveTo at hnone ⊢
    split_ifs at hnone ⊢
    rfl

/-- C9 witness: a fresh piece is unmoved; a successful Rook move sets
hasMoved; a moved piece stays moved across further move attempts. -/
theorem hasMoved_lifecycle_witness :
    (⟨Color.WHITE, 0, 0, false⟩ : PieceState).hasMoved = false ∧
    (ChessPiece.moveTo PieceKind.Rook ⟨Color.WHITE, 0, 0, false⟩ 0 4).1.hasMoved =
      true ∧
    (runMoves PieceKind.Rook [(4, 4), (9, 9)]
        ⟨Color.WHITE, 0, 4, true⟩).hasMoved = true :=
  ⟨(hasMoved_lifecycle PieceKind.Rook).1 Color.WHITE 0 0 ⟨0, 0⟩
      ⟨Color.WHITE, 0, 0, false⟩ rfl,
   (hasMoved_lifecycle PieceKind.Rook).2.1 ⟨Color.WHITE, 0, 0, false⟩ 0 4
      (by decide),
   (hasMoved_lifecycle PieceKind.Rook).2.2 ⟨Color.WHITE, 0, 4, true⟩
      [(4, 4), (9, 9)] rfl⟩

/-- C10: validateBoardState returns true exactly when both per-color
counters are at most 16. -/
theorem validateBoardState_iff (c : Counters) :
    validateBoardState c = true ↔ c.whiteCount ≤ 16 ∧ c.blackCount ≤ 16 := by
  simp [validateBoardState]

end Chess
